import Mathlib

/-!
Shallow embedding of the authentication and synchronization cores of the
`ttyms` terminal Teams client (Rust), together with proofs checking the
natural-language specification against the code.

Conventions:
* Rust `u64` values are modelled as `Nat`; Rust `saturating_sub` coincides
  with truncated `Nat` subtraction.
* Rust `String` values are modelled as Lean `String` or `List Char`;
  where the Rust code iterates over UTF-8 bytes, the byte sequence is
  computed explicitly (`utf8Bytes`).
* Fallible operations return `Except Unit` / `Option`; external effects
  (network responses, vault contents, file contents) are passed in as
  explicit parameters, and outbound effects (sleeps, POSTs, credential
  stores) are collected in an explicit trace.
-/

namespace Ttyms

/-- `TokenResponse` from `src/auth.rs`: the OAuth credential record. -/
structure TokenResponse where
  access_token : String
  refresh_token : Option String
  expires_in : Nat
  token_type : String
  obtained_at : Nat
  deriving DecidableEq, Repr

/-- `TokenResponse::is_expired` from `src/auth.rs`, with the current time
passed explicitly.  The Rust code computes
`now >= obtained_at + expires_in.saturating_sub(60)`; `Nat` subtraction is
exactly `saturating_sub`. -/
def TokenResponse.is_expired (t : TokenResponse) (now : Nat) : Bool :=
  decide (t.obtained_at + (t.expires_in - 60) ≤ now)

/-- `TokenResponse::with_timestamp` from `src/auth.rs`: stamps the credential
with the current time. -/
def TokenResponse.with_timestamp (t : TokenResponse) (now : Nat) : TokenResponse :=
  { t with obtained_at := now }

/-! ### Percent-encoding and URL-decoding (`src/auth.rs`) -/

/-- UTF-8 encoding of one character, as the Rust `str::bytes` iterator
produces it.  Strings are modelled as `List Char`; `percent_encode`
iterates over the UTF-8 bytes of its input. -/
def utf8Bytes (c : Char) : List Nat :=
  let n := c.toNat
  if n < 0x80 then [n]
  else if n < 0x800 then [0xC0 + n / 64, 0x80 + n % 64]
  else if n < 0x10000 then [0xE0 + n / 4096, 0x80 + n / 64 % 64, 0x80 + n % 64]
  else [0xF0 + n / 0x40000, 0x80 + n / 4096 % 64, 0x80 + n / 64 % 64, 0x80 + n % 64]

/-- The unreserved byte class of `percent_encode`:
`b'A'..=b'Z' | b'a'..=b'z' | b'0'..=b'9' | b'-' | b'_' | b'.' | b'~'`. -/
def isUnreservedByte (b : Nat) : Bool :=
  (65 ≤ b && b ≤ 90) || (97 ≤ b && b ≤ 122) || (48 ≤ b && b ≤ 57) ||
    b == 45 || b == 95 || b == 46 || b == 126

/-- Uppercase hex digit character, as produced by Rust `format!("{:02X}")`
for each nibble. -/
def hexUpper (d : Nat) : Char :=
  if d < 10 then Char.ofNat (48 + d) else Char.ofNat (55 + d)

/-- Encoding of a single byte by `percent_encode`: unreserved bytes pass
through, all others become `%XX` with uppercase hex. -/
def encodeByte (b : Nat) : List Char :=
  if isUnreservedByte b then [Char.ofNat b]
  else ['%', hexUpper (b / 16), hexUpper (b % 16)]

/-- `percent_encode` from `src/auth.rs`, on strings as `List Char`:
encode each UTF-8 byte of the input. -/
def percent_encode (s : List Char) : List Char :=
  ((s.map utf8Bytes).flatten.map encodeByte).flatten

/-- Value of one hex digit character (`0-9`, `a-f`, `A-F`), as accepted by
Rust `u8::from_str_radix(_, 16)`. -/
def hexVal (c : Char) : Option Nat :=
  let n := c.toNat
  if 48 ≤ n && n ≤ 57 then some (n - 48)
  else if 97 ≤ n && n ≤ 102 then some (n - 87)
  else if 65 ≤ n && n ≤ 70 then some (n - 55)
  else none

/-- Rust `u8::from_str_radix(hex, 16)` on the (up to two) characters that
`simple_url_decode` collects after a `%`: an optional leading `+` sign is
accepted, an empty digit string or any non-hex digit fails, and two hex
digits never overflow `u8`. -/
def u8_from_hex : List Char → Option Nat
  | [] => none
  | ['+'] => none
  | [c] => hexVal c
  | ['+', c] => hexVal c
  | [c1, c2] =>
      match hexVal c1, hexVal c2 with
      | some a, some b => some (16 * a + b)
      | _, _ => none
  | _ => none

/-- `simple_url_decode` from `src/auth.rs`, on strings as `List Char`:
`%` consumes up to two following characters and, if they parse as hex,
pushes the byte (as a Unicode scalar); `+` becomes a space; everything
else passes through. -/
def simple_url_decode : List Char → List Char
  | [] => []
  | [c] =>
      if c = '%' then []
      else if c = '+' then [' '] else [c]
  | [c, c1] =>
      if c = '%' then
        match u8_from_hex [c1] with
        | some b => [Char.ofNat b]
        | none => []
      else (if c = '+' then ' ' else c) :: simple_url_decode [c1]
  | c :: c1 :: c2 :: rest =>
      if c = '%' then
        match u8_from_hex [c1, c2] with
        | some b => Char.ofNat b :: simple_url_decode rest
        | none => simple_url_decode rest
      else (if c = '+' then ' ' else c) :: simple_url_decode (c1 :: c2 :: rest)

/-- The RFC 3986 reserved characters (gen-delims and sub-delims); the
character with code 39 is the apostrophe. -/
def reservedChars : List Char :=
  [':', '/', '?', '#', '[', ']', '@', '!', '$', '&', Char.ofNat 39,
   '(', ')', '*', '+', ',', ';', '=']

/-! ### PKCE callback parsing (`parse_auth_callback` in `src/auth.rs`) -/

/-- Helper for `splitWs`; `acc` holds the current word reversed. -/
def splitWsAux : List Char → List Char → List (List Char)
  | [], acc => if acc = [] then [] else [acc.reverse]
  | c :: rest, acc =>
      if c.isWhitespace then
        if acc = [] then splitWsAux rest []
        else acc.reverse :: splitWsAux rest []
      else splitWsAux rest (c :: acc)

/-- Rust `str::split_whitespace`: split on runs of whitespace, dropping
empty pieces (the request line only contains ASCII whitespace). -/
def splitWs (l : List Char) : List (List Char) :=
  splitWsAux l []

/-- Helper for `splitChar`; `acc` holds the current piece reversed. -/
def splitCharAux (sep : Char) : List Char → List Char → List (List Char)
  | [], acc => [acc.reverse]
  | c :: rest, acc =>
      if c = sep then acc.reverse :: splitCharAux sep rest []
      else splitCharAux sep rest (c :: acc)

/-- Rust `str::split(sep)`: split on every occurrence of `sep`, keeping
empty pieces; always yields at least one piece. -/
def splitChar (sep : Char) (l : List Char) : List (List Char) :=
  splitCharAux sep l []

/-- Rust `str::splitn(2, c)` as used for `key=value` pairs: the part
before the first equals sign, and optionally the rest. -/
def splitn2Eq : List Char → List Char × Option (List Char)
  | [] => ([], none)
  | c :: rest =>
      if c = '=' then ([], some rest)
      else
        let kv := splitn2Eq rest
        (c :: kv.1, kv.2)

/-- Rust `str::lines().next()`: everything before the first newline, with
a trailing carriage return stripped. -/
def firstLine (l : List Char) : List Char :=
  let line := l.takeWhile (· ≠ '\n')
  if line.getLast? = some '\r' then line.dropLast else line

/-- `parse_auth_callback` from `src/auth.rs`: extract the path from the
request line, take the query after the first `?`, scan `&`-separated
parameters into `code` / `error` / `error_description` (last assignment
wins), and return the code, or an `Authentication denied` error built
from `error` and `error_description`. -/
def parse_auth_callback (request : List Char) : Except (List Char) (List Char) :=
  let path := ((splitWs (firstLine request)).get? 1).getD []
  let query := ((splitChar '?' path).get? 1).getD []
  let st := (splitChar '&' query).foldl
    (fun (st : Option (List Char) × Option (List Char) × Option (List Char)) param =>
      let kv := splitn2Eq param
      if kv.1 = "code".data then (kv.2.map simple_url_decode, st.2.1, st.2.2)
      else if kv.1 = "error".data then (st.1, kv.2.map simple_url_decode, st.2.2)
      else if kv.1 = "error_description".data then (st.1, st.2.1, kv.2.map simple_url_decode)
      else st)
    (none, none, none)
  match st.1 with
  | some code => .ok code
  | none =>
      let err := (st.2.1).getD "unknown".data
      let desc := (st.2.2).getD []
      .error ("Authentication denied: ".data ++ err ++ " - ".data ++ desc)

/-! ### SecretStore (`src/auth.rs`): tiered credential loading -/

/-- Rust `str::parse::<u64>` on a string as `List Char`: an optional
leading `+` sign, then at least one ASCII digit, and the value must fit
in 64 bits. -/
def parseU64 (l : List Char) : Option Nat :=
  let digits := if l.head? = some '+' then l.tail else l
  if !digits.isEmpty && digits.all (·.isDigit) then
    let v := digits.foldl (fun n c => n * 10 + (c.toNat - 48)) 0
    if v < 2 ^ 64 then some v else none
  else none

/-- The external storage state `load_cached_token` reads: the three vault
entries (`None` models any keyring failure — entry creation or
`get_password` — which the code treats alike), whether the config
directory resolves, whether the token file exists, and the file's
contents (`None` models a `read_to_string` I/O failure). -/
structure StoreEnv where
  kr_at : Option String
  kr_rt : Option String
  kr_meta : Option String
  config_dir_ok : Bool
  file_exists : Bool
  file_content : Option String
  deriving Repr

/-- Rust `Option::filter(|s| !s.is_empty())`, applied to a vault read:
an empty string or a failed read both yield `None`. -/
def filterNonempty : Option String → Option String
  | some s => if s = "" then none else some s
  | none => none

/-- `load_token_keyring` from `src/auth.rs`: require a non-empty access
token, filter an empty refresh token to `None`, and parse the metadata
entry `"expires_in,obtained_at"` with defaults `3600` and `0`. -/
def load_token_keyring (env : StoreEnv) : Option TokenResponse :=
  match filterNonempty env.kr_at with
  | none => none
  | some atok =>
      let meta := env.kr_meta.getD ""
      let parts := splitChar ',' meta.data
      let expires_in := ((parts.get? 0).bind parseU64).getD 3600
      let obtained_at := ((parts.get? 1).bind parseU64).getD 0
      some ⟨atok, filterNonempty env.kr_rt, expires_in, "Bearer", obtained_at⟩

/-- `load_token_file` from `src/auth.rs`.  The serde JSON parser is passed
in as `parse`.  A missing file or an unparsable file yields `Ok none`,
but an unresolvable config directory (`token_file_path()?`) or a failing
`read_to_string` propagates an error. -/
def load_token_file (parse : String → Option TokenResponse) (env : StoreEnv) :
    Except Unit (Option TokenResponse) :=
  if env.config_dir_ok = false then .error ()
  else if env.file_exists = false then .ok none
  else
    match env.file_content with
    | none => .error ()
    | some json =>
        match parse json with
        | some t => .ok (some t)
        | none => .ok none

/-- `load_cached_token` from `src/auth.rs`: try the vault tier first,
silently falling through to the file tier when it yields nothing. -/
def load_cached_token (parse : String → Option TokenResponse) (env : StoreEnv) :
    Except Unit (Option TokenResponse) :=
  match load_token_keyring env with
  | some t => .ok (some t)
  | none => load_token_file parse env

/-! ### TokenLifecycle and device-code polling (`src/auth.rs`) -/

/-- Observable side effects of the authentication functions: sleeping,
POSTing to the token endpoint, and persisting a credential through
`store_token`. -/
inductive Effect where
  | sleep (secs : Nat)
  | post
  | store (t : TokenResponse)
  deriving DecidableEq, Repr

/-- `refresh_access_token` from `src/auth.rs`.  `resp` is the parsed
token-endpoint response body (`none` models a transport error or a body
that fails to parse); `store_ok` says whether `store_token` succeeds.
On success the refreshed credential is timestamped and persisted. -/
def refresh_access_token (resp : Option TokenResponse) (store_ok : Bool)
    (now : Nat) : Except Unit (TokenResponse × List Effect) :=
  match resp with
  | none => .error ()
  | some t =>
      let t2 := t.with_timestamp now
      if store_ok then .ok (t2, [.store t2]) else .error ()

/-- `get_valid_token` from `src/auth.rs`: load the cached credential,
return it if not expired, otherwise refresh when a refresh token exists;
any refresh failure collapses to `Ok none`. -/
def get_valid_token (parse : String → Option TokenResponse) (env : StoreEnv)
    (now : Nat) (refreshResp : Option TokenResponse) (store_ok : Bool) :
    Except Unit (Option TokenResponse) × List Effect :=
  match load_cached_token parse env with
  | .error e => (.error e, [])
  | .ok none => (.ok none, [])
  | .ok (some tok) =>
      if tok.is_expired now = false then (.ok (some tok), [])
      else
        match tok.refresh_token with
        | some _ =>
            match refresh_access_token refreshResp store_ok now with
            | .ok (t, effs) => (.ok (some t), effs)
            | .error _ => (.ok none, [])
        | none => (.ok none, [])

/-- One token-endpoint answer during device-code polling: an HTTP
success whose body may or may not parse as a token, a named OAuth error,
or a non-success body that is not a `TokenError`. -/
inductive EndpointResp where
  | success (parsed : Option TokenResponse)
  | err (e : String) (d : Option String)
  | garbage
  deriving Repr

/-- Terminal outcome of the polling loop. -/
inductive PollOutcome where
  | token (t : TokenResponse)
  | failure (msg : String)
  | exhausted
  deriving DecidableEq, Repr

/-- `poll_for_token` from `src/auth.rs`, driven by the finite list of
token-endpoint answers (`exhausted` covers the loop still running when
the list runs out).  Each attempt sleeps for the interval and POSTs;
`authorization_pending` loops, `slow_down` sleeps 5 extra seconds and
loops, `expired_token` and any other named error are terminal, a
success is timestamped, persisted and returned. -/
def poll_for_token (interval now : Nat) (store_ok : Bool) :
    List EndpointResp → List Effect × PollOutcome
  | [] => ([], .exhausted)
  | r :: rest =>
      let pre : List Effect := [.sleep interval, .post]
      match r with
      | .success parsed =>
          match parsed with
          | none => (pre, .failure "Failed to parse token response")
          | some t =>
              let t2 := t.with_timestamp now
              if store_ok then (pre ++ [.store t2], .token t2)
              else (pre, .failure "store_token failed")
      | .err e d =>
          if e = "authorization_pending" then
            let k := poll_for_token interval now store_ok rest
            (pre ++ k.1, k.2)
          else if e = "slow_down" then
            let k := poll_for_token interval now store_ok rest
            (pre ++ [.sleep 5] ++ k.1, k.2)
          else if e = "expired_token" then
            (pre, .failure "Device code expired. Please restart and try again.")
          else
            (pre, .failure ("Authentication error: " ++ e ++ " - " ++ d.getD ""))
      | .garbage => (pre, .failure "Unexpected response during authentication")

/-! ### Messages and new-message detection (`src/models.rs`, `src/app.rs`) -/

/-- `MessageBody` from `src/models.rs`. -/
structure MessageBody where
  content : Option String
  content_type : Option String
  deriving DecidableEq, Repr

/-- `Message` from `src/models.rs`, restricted to the fields the verified
operations read (`id`, `messageType`, `body`, `createdDateTime`); the
remaining fields (`from`, `reactions`, `attachments`) are presentation
data never inspected by the claims' code paths. -/
structure Message where
  id : String
  message_type : Option String
  body : Option MessageBody
  created_date_time : Option String
  deriving DecidableEq, Repr

/-- `App::detect_new_messages` from `src/app.rs`, with the relevant state
(`self.messages`, `self.known_message_ids`) passed and returned
explicitly: collect the current ids; if the known set is empty, record
them and report `false` (initialization); otherwise report whether any
current id is unknown, and replace the known set wholesale. -/
def detect_new_messages (messages : List Message) (known : Finset String) :
    Bool × Finset String :=
  let new_ids : Finset String := (messages.map (·.id)).toFinset
  if known = ∅ then (false, new_ids)
  else (decide (∃ i ∈ new_ids, i ∉ known), new_ids)

/-! ### DeltaMerger (spec section 4.5)

The repository's test suite (`tests/app_tests.rs`, module `delta_sync_tests`)
exercises `App::merge_delta_messages`, but no such method exists under
`src/`; the merge routine itself is code of this repository that is
missing from the sources.  It is therefore modelled from the spec. -/

/-- Modelled from the spec: the `Entity` a DeltaMerger merge operates on —
"ordered sequence of Entity" with an id, content, and a creation
timestamp (the missing code is `App::merge_delta_messages`, exercised
only by `tests/app_tests.rs`). -/
structure Entity where
  id : String
  content : String
  created : Nat
  deriving DecidableEq, Repr

/-- Modelled from the spec: processing one incoming entity — "if its id
matches an existing entity, replace that existing entity's content in
place (an update, not an insertion) — `has_new` is not set for this
case.  If its id is new, append it to the candidate set — `has_new`
becomes true if any incoming entity is genuinely new." -/
def mergeStep (acc : List Entity × Bool) (e : Entity) : List Entity × Bool :=
  if acc.1.any (fun x => x.id == e.id) then
    (acc.1.map (fun x => if x.id == e.id then e else x), acc.2)
  else (acc.1 ++ [e], true)

/-- Modelled from the spec: DeltaMerger
`merge(existing, incoming) -> (merged sequence, has_new)` — process each
incoming entity with `mergeStep`, then sort the full set by creation
timestamp ascending; "an empty incoming set is a no-op, returns
`has_new = false`, and does not re-sort". -/
def merge (existing incoming : List Entity) : List Entity × Bool :=
  if incoming.isEmpty then (existing, false)
  else
    let r := incoming.foldl mergeStep (existing, false)
    (List.insertionSort (fun a b => a.created ≤ b.created) r.1, r.2)

instance : IsTotal Entity (fun a b => a.created ≤ b.created) :=
  ⟨fun a b => Nat.le_total a.created b.created⟩

instance : IsTrans Entity (fun a b => a.created ≤ b.created) :=
  ⟨fun _ _ _ => Nat.le_trans⟩

/-! ### SyncEngine UI-loop result handling (`run_app` in `src/main.rs`) -/

/-- `Team` from `src/models.rs`. -/
structure Team where
  id : String
  display_name : String
  description : Option String
  deriving DecidableEq, Repr

/-- `Channel` from `src/models.rs`. -/
structure Channel where
  id : String
  display_name : String
  description : Option String
  membership_type : Option String
  deriving DecidableEq, Repr

/-- `ViewMode` from `src/app.rs`. -/
inductive ViewMode where
  | chats
  | teams
  deriving DecidableEq, Repr

/-- `BgResult` from `src/main.rs`: results delivered to the UI loop by
background tasks. -/
inductive BgResult where
  | channels (team_id : String) (chs : List Channel)
  | channelMessages (channel_id : String) (msgs : List Message)
  | presenceMap (m : List (String × String))
  | myPresence (avail : String)

/-- The slice of `App` state (`src/app.rs`) read and written by the
background-result arms of `run_app`'s event loop; the two `HashMap`
caches are modelled as lookup functions. -/
structure UiState where
  view_mode : ViewMode
  teams : List Team
  selected_team : Nat
  channels : List Channel
  selected_channel : Nat
  channel_messages : List Message
  channel_scroll_offset : Nat
  channels_cache : String → Option (List Channel)
  channel_message_cache : String → Option (List Message)
  presence_map : String → Option String
  my_presence : String

/-- `App::selected_team_id` from `src/app.rs`. -/
def selected_team_id (s : UiState) : Option String :=
  (s.teams.get? s.selected_team).map (·.id)

/-- `App::selected_channel_id` from `src/app.rs`. -/
def selected_channel_id (s : UiState) : Option String :=
  (s.channels.get? s.selected_channel).map (·.id)

/-- `App::show_cached_messages_for_selected_channel` from `src/app.rs`:
render the cached messages of the selected channel, or clear them when
the channel was never cached. -/
def show_cached_messages_for_selected_channel (s : UiState) : UiState :=
  match selected_channel_id s with
  | some cid =>
      match s.channel_message_cache cid with
      | some cached =>
          { s with channel_messages := cached, channel_scroll_offset := 0 }
      | none => { s with channel_messages := [] }
  | none => s

/-- `HashMap::insert` on a cache modelled as a lookup function. -/
def updateMap {α : Type} (f : String → Option α) (k : String) (v : α) :
    String → Option α :=
  fun x => if x = k then some v else f x

/-- The `BgResult` match in `run_app`'s event loop (`src/main.rs`):
always insert the result into the cache keyed by the carried id, and
replace the live collection only when that entity is still selected
(for channel messages: only while the Teams view is active). -/
def handle_bg_result (s : UiState) : BgResult → UiState
  | .channels team_id chs =>
      let s1 := { s with channels_cache := updateMap s.channels_cache team_id chs }
      if selected_team_id s1 = some team_id then
        let s2 := { s1 with channels := chs }
        if s2.selected_channel = 0 then show_cached_messages_for_selected_channel s2
        else s2
      else s1
  | .channelMessages channel_id msgs =>
      let s1 :=
        { s with channel_message_cache := updateMap s.channel_message_cache channel_id msgs }
      if selected_channel_id s1 = some channel_id ∧ s1.view_mode = .teams then
        { s1 with channel_messages := msgs }
      else s1
  | .presenceMap m =>
      { s with presence_map := m.foldl (fun f p => updateMap f p.1 p.2) s.presence_map }
  | .myPresence avail => { s with my_presence := avail }

/-- Concrete UI state used to witness the background-result invariants:
Teams view, one team `t1` selected, one channel `c1` selected, all
caches empty. -/
def sampleUi : UiState :=
  ⟨ViewMode.teams, [⟨"t1", "T1", none⟩], 0, [⟨"c1", "C1", none, none⟩], 0,
    [], 0, fun _ => none, fun _ => none, fun _ => none, "p"⟩

end Ttyms

open Ttyms

set_option maxRecDepth 8192

/-- An ASCII character is its own single UTF-8 byte. -/
theorem utf8Bytes_ascii (c : Char) (h : c.toNat < 128) : utf8Bytes c = [c.toNat] := by
  simp [utf8Bytes, h]

/-- Unreserved bytes never encode to `%` or `+`. -/
theorem unreserved_ne_pct_plus :
    ∀ b, b < 256 → isUnreservedByte b = true →
      Char.ofNat b ≠ '%' ∧ Char.ofNat b ≠ '+' := by
  decide

/-- Decoding inverts the `%XX` uppercase-hex encoding of any byte. -/
theorem u8_from_hex_hexUpper :
    ∀ b, b < 256 → u8_from_hex [hexUpper (b / 16), hexUpper (b % 16)] = some b := by
  decide

/-- A character other than `%` and `+` decodes to itself. -/
theorem simple_url_decode_cons (c : Char) (l : List Char)
    (h1 : c ≠ '%') (h2 : c ≠ '+') :
    simple_url_decode (c :: l) = c :: simple_url_decode l := by
  rcases l with _ | ⟨c1, _ | ⟨c2, rest⟩⟩ <;> simp [simple_url_decode, h1, h2]

/-- A `%` followed by two characters that parse as hex decodes to that byte. -/
theorem simple_url_decode_pct (c1 c2 : Char) (l : List Char) (b : Nat)
    (h : u8_from_hex [c1, c2] = some b) :
    simple_url_decode ('%' :: c1 :: c2 :: l) = Char.ofNat b :: simple_url_decode l := by
  simp [simple_url_decode, h]

/-- Decoding peels off the encoding of one byte. -/
theorem simple_url_decode_encodeByte (b : Nat) (hb : b < 256) (l : List Char) :
    simple_url_decode (encodeByte b ++ l) = Char.ofNat b :: simple_url_decode l := by
  by_cases h : isUnreservedByte b
  · rw [encodeByte, if_pos h, List.singleton_append]
    exact simple_url_decode_cons _ _ (unreserved_ne_pct_plus b hb h).1
      (unreserved_ne_pct_plus b hb h).2
  · rw [encodeByte, if_neg h]
    exact simple_url_decode_pct _ _ _ _ (u8_from_hex_hexUpper b hb)

/-- Decoding inverts the byte-wise encoding of any byte sequence, yielding
one character per byte. -/
theorem simple_url_decode_encode_bytes (bs : List Nat) (h : ∀ b ∈ bs, b < 256) :
    simple_url_decode ((bs.map encodeByte).flatten) = bs.map Char.ofNat := by
  induction bs with
  | nil => rfl
  | cons b t ih =>
      rw [List.map_cons, List.flatten_cons, List.map_cons,
        simple_url_decode_encodeByte b (h b (List.mem_cons_self b t)) _,
        ih fun x hx => h x (List.mem_cons_of_mem b hx)]

/-- Round trip on any ASCII string: decoding the percent-encoding gives
the original back. -/
theorem simple_url_decode_percent_encode_ascii (s : List Char)
    (h : ∀ c ∈ s, c.toNat < 128) :
    simple_url_decode (percent_encode s) = s := by
  have hbytes : (s.map utf8Bytes).flatten = s.map Char.toNat := by
    induction s with
    | nil => rfl
    | cons c t ih =>
        rw [List.map_cons, List.flatten_cons, List.map_cons,
          utf8Bytes_ascii c (h c (List.mem_cons_self c t)),
          ih fun x hx => h x (List.mem_cons_of_mem c hx), List.singleton_append]
  rw [percent_encode, hbytes,
    simple_url_decode_encode_bytes _ (by intro b hb; simp only [List.mem_map] at hb
                                         obtain ⟨c, hc, rfl⟩ := hb
                                         exact lt_trans (h c hc) (by norm_num)),
    List.map_map]
  simp only [Function.comp_def, Char.ofNat_toNat, List.map_id']

/-- Every unreserved byte is ASCII. -/
theorem isUnreservedByte_lt (n : Nat) (h : isUnreservedByte n = true) : n < 128 := by
  simp only [isUnreservedByte, Bool.or_eq_true, Bool.and_eq_true, decide_eq_true_eq,
    beq_iff_eq] at h
  omega

/-- C2: for any string made of reserved characters, spaces and unreserved
characters, `simple_url_decode (percent_encode s) = s`: unreserved
characters pass through unescaped, every other byte is escaped as `%XX`
uppercase hex, and decoding reverses `%XX` and maps `+` to a space. -/
theorem c2_percent_roundtrip (s : List Char)
    (h : ∀ c ∈ s, c ∈ reservedChars ∨ c = ' ' ∨ isUnreservedByte c.toNat = true) :
    simple_url_decode (percent_encode s) = s := by
  apply simple_url_decode_percent_encode_ascii
  intro c hc
  rcases h c hc with hr | hsp | hu
  · revert hr
    have : ∀ c ∈ reservedChars, c.toNat < 128 := by decide
    exact this c
  · subst hsp; decide
  · exact isUnreservedByte_lt _ hu

/-- C2 witness: the round trip at the concrete string `"a b+c~/?:Z9"`. -/
theorem c2_percent_roundtrip_witness :
    (∀ c ∈ "a b+c~/?:Z9".data,
        c ∈ reservedChars ∨ c = ' ' ∨ isUnreservedByte c.toNat = true) ∧
      simple_url_decode (percent_encode "a b+c~/?:Z9".data) = "a b+c~/?:Z9".data :=
  ⟨by decide, c2_percent_roundtrip _ (by decide)⟩

/-- C8: on a request line with `code=ABC123` the parser returns `ABC123`;
with `error=access_denied&error_description=User%20denied` it fails and
the message visibly contains `access_denied` (shown by the explicit
decomposition of the message); with neither `code` nor `error` it fails. -/
theorem c8_parse_auth_callback :
    parse_auth_callback "GET /?code=ABC123 HTTP/1.1\r\nHost: localhost\r\n\r\n".data
        = .ok "ABC123".data
    ∧ parse_auth_callback
        "GET /?error=access_denied&error_description=User%20denied HTTP/1.1\r\n".data
        = .error ("Authentication denied: ".data ++ "access_denied".data ++
            " - User denied".data)
    ∧ parse_auth_callback "GET / HTTP/1.1\r\n".data
        = .error "Authentication denied: unknown - ".data := by
  refine ⟨by rfl, by rfl, by rfl⟩

/-- C3: the claim says every parse or I/O failure in either tier yields
`Ok none`.  Not so: with an empty vault, an existing token file and a
failing `read_to_string` (modelled by `file_content = none`), the `?` in
`load_token_file` propagates an error instead. -/
theorem c3_counterexample :
    load_cached_token (fun _ => none) ⟨none, none, none, true, true, none⟩ =
      .error () := rfl

/-- C3 (amended): `load_cached_token` prefers the vault tier and falls
back to the file tier whenever the vault yields no usable (missing or
empty) access token; a parse failure or a missing file yields `Ok none`;
but a file-tier read I/O failure (or an unresolvable config directory)
propagates as an error. -/
theorem c3_load_cached_token (parse : String → Option TokenResponse) (env : StoreEnv) :
    (∀ t, load_token_keyring env = some t →
        load_cached_token parse env = .ok (some t))
    ∧ (load_token_keyring env = none →
        load_cached_token parse env = load_token_file parse env)
    ∧ ((env.kr_at = none ∨ env.kr_at = some "") → load_token_keyring env = none)
    ∧ (env.config_dir_ok = true → env.file_exists = false →
        load_token_file parse env = .ok none)
    ∧ (∀ j, env.config_dir_ok = true → env.file_exists = true →
        env.file_content = some j → parse j = none →
        load_token_file parse env = .ok none)
    ∧ (env.config_dir_ok = true → env.file_exists = true →
        env.file_content = none → load_token_file parse env = .error ()) := by
  refine ⟨?_, ?_, ?_, ?_, ?_, ?_⟩
  · intro t ht; simp [load_cached_token, ht]
  · intro h; simp [load_cached_token, h]
  · rintro (h | h) <;> simp [load_token_keyring, h, filterNonempty]
  · intro hc hf; simp [load_token_file, hc, hf]
  · intro j hc hf hj hp; simp [load_token_file, hc, hf, hj, hp]
  · intro hc hf hj; simp [load_token_file, hc, hf, hj]

/-- C3 witness: with an empty vault the loader falls through to the file
tier, and an unparsable file yields `Ok none`. -/
theorem c3_load_cached_token_witness :
    load_cached_token (fun _ => none) ⟨none, none, none, true, true, some "junk"⟩ =
        load_token_file (fun _ => none) ⟨none, none, none, true, true, some "junk"⟩
    ∧ load_token_file (fun _ => none) ⟨none, none, none, true, true, some "junk"⟩ =
        .ok none :=
  ⟨(c3_load_cached_token (fun _ => none) _).2.1 rfl,
   (c3_load_cached_token (fun _ => none) _).2.2.2.2.1 "junk" rfl rfl rfl rfl⟩

/-- C10: a non-empty vault access token with missing, empty, or
unparsable metadata still yields a credential, with `expires_in = 3600`,
`obtained_at = 0` and token type `Bearer`; an empty refresh-token vault
entry maps to no refresh token; and the defaulted credential is reported
expired at any realistic clock (any `now ≥ 3540`). -/
theorem c10_load_token_keyring (env : StoreEnv) (atk : String)
    (h1 : env.kr_at = some atk) (h2 : atk ≠ "")
    (hmeta : env.kr_meta = none ∨ env.kr_meta = some "" ∨
      ∃ m, env.kr_meta = some m ∧
        ((splitChar ',' m.data).get? 0).bind parseU64 = none ∧
        ((splitChar ',' m.data).get? 1).bind parseU64 = none) :
    load_token_keyring env = some ⟨atk, filterNonempty env.kr_rt, 3600, "Bearer", 0⟩
    ∧ (env.kr_rt = some "" → filterNonempty env.kr_rt = none)
    ∧ ∀ now, 3540 ≤ now →
        TokenResponse.is_expired ⟨atk, filterNonempty env.kr_rt, 3600, "Bearer", 0⟩
          now = true := by
  have hat : filterNonempty env.kr_at = some atk := by
    rw [h1]; simp [filterNonempty, h2]
  have hm : ((splitChar ',' (env.kr_meta.getD "").data).get? 0).bind parseU64 = none
      ∧ ((splitChar ',' (env.kr_meta.getD "").data).get? 1).bind parseU64 = none := by
    rcases hmeta with h | h | ⟨m, hmm, he, ho⟩
    · rw [h]; exact ⟨rfl, rfl⟩
    · rw [h]; exact ⟨rfl, rfl⟩
    · rw [hmm]; exact ⟨he, ho⟩
  refine ⟨?_, ?_, ?_⟩
  · simp only [List.get?_eq_getElem?] at hm
    simp [load_token_keyring, hat, hm.1, hm.2]
  · intro h; rw [h]; rfl
  · intro now hnow
    simp only [TokenResponse.is_expired, decide_eq_true_eq]
    omega

/-- C4: `get_valid_token` returns `Ok none` when nothing is stored;
returns a stored unexpired credential unchanged; on an expired
credential with a refresh token it refreshes and, on success, persists
and returns the new credential, while a refresh failure yields `Ok none`
(not an error); and an expired credential without a refresh token yields
`Ok none`. -/
theorem c4_get_valid_token (parse : String → Option TokenResponse) (env : StoreEnv)
    (now : Nat) (refreshResp : Option TokenResponse) (store_ok : Bool) :
    (load_cached_token parse env = .ok none →
      get_valid_token parse env now refreshResp store_ok = (.ok none, []))
    ∧ (∀ tok, load_cached_token parse env = .ok (some tok) →
        tok.is_expired now = false →
        get_valid_token parse env now refreshResp store_ok = (.ok (some tok), []))
    ∧ (∀ tok rt t, load_cached_token parse env = .ok (some tok) →
        tok.is_expired now = true → tok.refresh_token = some rt →
        refreshResp = some t → store_ok = true →
        get_valid_token parse env now refreshResp store_ok =
          (.ok (some (t.with_timestamp now)), [.store (t.with_timestamp now)]))
    ∧ (∀ tok rt, load_cached_token parse env = .ok (some tok) →
        tok.is_expired now = true → tok.refresh_token = some rt →
        refreshResp = none →
        get_valid_token parse env now refreshResp store_ok = (.ok none, []))
    ∧ (∀ tok, load_cached_token parse env = .ok (some tok) →
        tok.is_expired now = true → tok.refresh_token = none →
        get_valid_token parse env now refreshResp store_ok = (.ok none, [])) := by
  refine ⟨?_, ?_, ?_, ?_, ?_⟩
  · intro h; simp [get_valid_token, h]
  · intro tok hl he; simp [get_valid_token, hl, he]
  · intro tok rt t hl he hrt hr hs
    simp [get_valid_token, hl, he, hrt, refresh_access_token, hr, hs]
  · intro tok rt hl he hrt hr
    simp [get_valid_token, hl, he, hrt, refresh_access_token, hr]
  · intro tok hl he hrt; simp [get_valid_token, hl, he, hrt]

/-- C4 witness: the no-credential, unexpired and refresh-success branches
at concrete stores and clocks. -/
theorem c4_get_valid_token_witness :
    get_valid_token (fun _ => none) ⟨none, none, none, true, false, none⟩
        1000 none true = (.ok none, [])
    ∧ get_valid_token (fun _ => none) ⟨some "A", none, some "3600,1000", true, false, none⟩
        1000 none true = (.ok (some ⟨"A", none, 3600, "Bearer", 1000⟩), [])
    ∧ get_valid_token (fun _ => none) ⟨some "A", some "R", some "60,0", true, false, none⟩
        1000 (some ⟨"NEW", some "R2", 3600, "Bearer", 0⟩) true =
        (.ok (some (TokenResponse.with_timestamp ⟨"NEW", some "R2", 3600, "Bearer", 0⟩ 1000)),
         [.store (TokenResponse.with_timestamp ⟨"NEW", some "R2", 3600, "Bearer", 0⟩ 1000)]) :=
  ⟨(c4_get_valid_token (fun _ => none) _ 1000 none true).1 rfl,
   (c4_get_valid_token (fun _ => none) _ 1000 none true).2.1
      ⟨"A", none, 3600, "Bearer", 1000⟩ rfl rfl,
   (c4_get_valid_token (fun _ => none) _ 1000 _ true).2.2.1
      ⟨"A", some "R", 60, "Bearer", 0⟩ "R" ⟨"NEW", some "R2", 3600, "Bearer", 0⟩
      rfl rfl rfl rfl rfl⟩

/-- C5: each polling attempt sleeps for the interval then POSTs;
`authorization_pending` loops with the same interval; `slow_down` adds a
fixed extra 5-second sleep; `expired_token` and any other named error
terminate with an error; a success is persisted and returned; and an
endpoint answering `authorization_pending` twice then a token receives
exactly three POSTs and the third response's token is returned. -/
theorem c5_poll_for_token (interval now : Nat) (store_ok : Bool)
    (d : Option String) (rest : List EndpointResp) :
    (poll_for_token interval now store_ok (.err "authorization_pending" d :: rest) =
      (Effect.sleep interval :: .post :: (poll_for_token interval now store_ok rest).1,
        (poll_for_token interval now store_ok rest).2))
    ∧ (poll_for_token interval now store_ok (.err "slow_down" d :: rest) =
      (Effect.sleep interval :: .post :: .sleep 5 ::
          (poll_for_token interval now store_ok rest).1,
        (poll_for_token interval now store_ok rest).2))
    ∧ (poll_for_token interval now store_ok (.err "expired_token" d :: rest) =
      ([.sleep interval, .post],
        .failure "Device code expired. Please restart and try again."))
    ∧ (∀ e, e ≠ "authorization_pending" → e ≠ "slow_down" → e ≠ "expired_token" →
        poll_for_token interval now store_ok (.err e d :: rest) =
          ([.sleep interval, .post],
            .failure ("Authentication error: " ++ e ++ " - " ++ d.getD "")))
    ∧ (∀ t, store_ok = true →
        poll_for_token interval now store_ok (.success (some t) :: rest) =
          ([.sleep interval, .post, .store (t.with_timestamp now)],
            .token (t.with_timestamp now)))
    ∧ (∀ t, store_ok = true →
        poll_for_token interval now store_ok
            [.err "authorization_pending" none, .err "authorization_pending" none,
              .success (some t)] =
          ([.sleep interval, .post, .sleep interval, .post, .sleep interval, .post,
              .store (t.with_timestamp now)],
            .token (t.with_timestamp now))
        ∧ [Effect.sleep interval, .post, .sleep interval, .post, .sleep interval, .post,
            .store (t.with_timestamp now)].count .post = 3) := by
  refine ⟨?_, ?_, ?_, ?_, ?_, ?_⟩
  · simp [poll_for_token]
  · simp [poll_for_token]
  · simp [poll_for_token]
  · intro e h1 h2 h3; simp [poll_for_token, h1, h2, h3]
  · intro t hs; simp [poll_for_token, hs]
  · intro t hs
    refine ⟨by simp [poll_for_token, hs], ?_⟩
    simp [List.count_cons]

/-- C5 witness: the named-error and polling-scenario branches at a
concrete interval, clock and token. -/
theorem c5_poll_for_token_witness :
    poll_for_token 2 7 true [.err "access_denied" (some "no"), .garbage] =
      ([.sleep 2, .post], .failure ("Authentication error: " ++ "access_denied" ++
          " - " ++ (some "no").getD ""))
    ∧ poll_for_token 2 7 true
        [.err "authorization_pending" none, .err "authorization_pending" none,
          .success (some ⟨"X", none, 3600, "Bearer", 0⟩)] =
      ([.sleep 2, .post, .sleep 2, .post, .sleep 2, .post,
          .store (TokenResponse.with_timestamp ⟨"X", none, 3600, "Bearer", 0⟩ 7)],
        .token (TokenResponse.with_timestamp ⟨"X", none, 3600, "Bearer", 0⟩ 7)) :=
  ⟨(c5_poll_for_token 2 7 true (some "no") [.garbage]).2.2.2.1 "access_denied"
      (by decide) (by decide) (by decide),
   ((c5_poll_for_token 2 7 true none []).2.2.2.2.2
      ⟨"X", none, 3600, "Bearer", 0⟩ rfl).1⟩

/-- C9: `detect_new_messages` treats first population as initialization
(empty known set: record ids, report `false`); otherwise it reports
`true` iff some current message id is not in the known set; and in every
case the known set is replaced wholesale by the current ids. -/
theorem c9_detect_new_messages (messages : List Message) (known : Finset String) :
    (known = ∅ → detect_new_messages messages known =
        (false, (messages.map (·.id)).toFinset))
    ∧ (known ≠ ∅ →
        ((detect_new_messages messages known).1 = true ↔
          ∃ m ∈ messages, m.id ∉ known))
    ∧ (detect_new_messages messages known).2 = (messages.map (·.id)).toFinset := by
  refine ⟨?_, ?_, ?_⟩
  · intro h; simp [detect_new_messages, h]
  · intro h
    simp only [detect_new_messages, if_neg h, decide_eq_true_eq, List.mem_toFinset,
      List.mem_map]
    constructor
    · rintro ⟨i, ⟨m, hm, rfl⟩, hi⟩
      exact ⟨m, hm, hi⟩
    · rintro ⟨m, hm, hi⟩
      exact ⟨m.id, ⟨m, hm, rfl⟩, hi⟩
  · by_cases h : known = ∅ <;> simp [detect_new_messages, h]

/-- C9 witness: initialization at an empty known set, and novelty
detection with known id `m1` and current ids `m1`, `m2`. -/
theorem c9_detect_new_messages_witness :
    detect_new_messages [⟨"m1", none, none, none⟩] ∅ =
        (false, ([⟨"m1", none, none, none⟩].map (Message.id)).toFinset)
    ∧ ((detect_new_messages [⟨"m1", none, none, none⟩, ⟨"m2", none, none, none⟩]
          {"m1"}).1 = true ↔
        ∃ m ∈ [⟨"m1", none, none, none⟩, (⟨"m2", none, none, none⟩ : Message)],
          m.id ∉ ({"m1"} : Finset String)) :=
  ⟨(c9_detect_new_messages [⟨"m1", none, none, none⟩] ∅).1 rfl,
   (c9_detect_new_messages _ {"m1"}).2.1 (by decide)⟩

/-- C6: merging one incoming entity whose id already exists replaces that
entity in place — the length is unchanged, `has_new` stays false, and the
new content is present; a genuinely new id is appended — the length grows
by one and `has_new` is true; for any nonempty incoming set the result is
sorted by creation timestamp ascending; and an empty incoming set is a
no-op returning `has_new = false` with the sequence unchanged. -/
theorem c6_merge (existing : List Entity) (e : Entity) (incoming : List Entity) :
    ((∃ x ∈ existing, x.id = e.id) →
      (merge existing [e]).2 = false
      ∧ (merge existing [e]).1.length = existing.length
      ∧ e ∈ (merge existing [e]).1)
    ∧ ((∀ x ∈ existing, x.id ≠ e.id) →
      (merge existing [e]).2 = true
      ∧ (merge existing [e]).1.length = existing.length + 1
      ∧ e ∈ (merge existing [e]).1)
    ∧ (incoming ≠ [] →
      List.Sorted (fun a b => a.created ≤ b.created) (merge existing incoming).1)
    ∧ merge existing [] = (existing, false) := by
  refine ⟨?_, ?_, ?_, by simp [merge]⟩
  · rintro ⟨x, hx, hxe⟩
    have hany : existing.any (fun y => y.id == e.id) = true := by
      simp only [List.any_eq_true, beq_iff_eq]
      exact ⟨x, hx, hxe⟩
    simp only [merge, List.isEmpty_cons, Bool.false_eq_true, if_false,
      List.foldl_cons, List.foldl_nil, mergeStep, hany, if_true]
    refine ⟨trivial, ?_, ?_⟩
    · rw [List.length_insertionSort, List.length_map]
    · rw [List.mem_insertionSort, List.mem_map]
      exact ⟨x, hx, by simp [hxe]⟩
  · intro h
    have hany : existing.any (fun y => y.id == e.id) = false := by
      simp only [List.any_eq_false, beq_iff_eq]
      exact h
    simp only [merge, List.isEmpty_cons, Bool.false_eq_true, if_false,
      List.foldl_cons, List.foldl_nil, mergeStep, hany, Bool.false_eq_true,
      if_false]
    refine ⟨trivial, ?_, ?_⟩
    · rw [List.length_insertionSort, List.length_append, List.length_cons,
        List.length_nil]
    · rw [List.mem_insertionSort]
      exact List.mem_append_right _ (List.mem_singleton_self e)
  · intro h
    rw [merge, if_neg (by simpa using h)]
    exact List.sorted_insertionSort _ _

/-- C6 witness: existing `[m1@10, m3@12]` merged with incoming `[m2@11]`
(the example of the spec), and the in-place update case. -/
theorem c6_merge_witness :
    ((merge [⟨"m1", "a", 10⟩, ⟨"m3", "c", 12⟩] [⟨"m2", "b", 11⟩]).2 = true
      ∧ (merge [⟨"m1", "a", 10⟩, ⟨"m3", "c", 12⟩] [⟨"m2", "b", 11⟩]).1.length = 2 + 1
      ∧ ⟨"m2", "b", 11⟩ ∈ (merge [⟨"m1", "a", 10⟩, ⟨"m3", "c", 12⟩] [⟨"m2", "b", 11⟩]).1)
    ∧ ((merge [⟨"m1", "a", 10⟩] [⟨"m1", "new", 10⟩]).2 = false
      ∧ (merge [⟨"m1", "a", 10⟩] [⟨"m1", "new", 10⟩]).1.length = 1
      ∧ ⟨"m1", "new", 10⟩ ∈ (merge [⟨"m1", "a", 10⟩] [⟨"m1", "new", 10⟩]).1)
    ∧ List.Sorted (fun a b => a.created ≤ b.created)
        (merge [⟨"m1", "a", 10⟩, ⟨"m3", "c", 12⟩] [⟨"m2", "b", 11⟩]).1 :=
  ⟨(c6_merge [⟨"m1", "a", 10⟩, ⟨"m3", "c", 12⟩] ⟨"m2", "b", 11⟩ []).2.1 (by decide),
   (c6_merge [⟨"m1", "a", 10⟩] ⟨"m1", "new", 10⟩ []).1 ⟨⟨"m1", "a", 10⟩, by decide, rfl⟩,
   (c6_merge [⟨"m1", "a", 10⟩, ⟨"m3", "c", 12⟩] ⟨"m2", "b", 11⟩ [⟨"m2", "b", 11⟩]).2.2.1
     (by decide)⟩

/-- Rendering cached messages never touches the channel list or either
cache. -/
theorem show_cached_preserves (s : UiState) :
    (show_cached_messages_for_selected_channel s).channels = s.channels
    ∧ (show_cached_messages_for_selected_channel s).channels_cache = s.channels_cache
    ∧ (show_cached_messages_for_selected_channel s).channel_message_cache
        = s.channel_message_cache := by
  rcases h : selected_channel_id s with _ | cid
  · simp [show_cached_messages_for_selected_channel, h]
  · rcases hc : s.channel_message_cache cid with _ | cached <;>
      simp [show_cached_messages_for_selected_channel, h, hc]

/-- C7: a background result carrying an entity id is always inserted into
the corresponding cache keyed by that id (and touches no other key); the
live collection is replaced only when the entity is still the currently
selected one (for channel messages additionally only while the Teams
view is active); a stale result never changes the on-screen
collection. -/
theorem c7_handle_bg_result (s : UiState) :
    (∀ tid chs,
      (handle_bg_result s (.channels tid chs)).channels_cache tid = some chs
      ∧ (∀ k, k ≠ tid →
          (handle_bg_result s (.channels tid chs)).channels_cache k = s.channels_cache k)
      ∧ (selected_team_id s = some tid →
          (handle_bg_result s (.channels tid chs)).channels = chs)
      ∧ (selected_team_id s ≠ some tid →
          (handle_bg_result s (.channels tid chs)).channels = s.channels
          ∧ (handle_bg_result s (.channels tid chs)).channel_messages
              = s.channel_messages))
    ∧ (∀ cid msgs,
      (handle_bg_result s (.channelMessages cid msgs)).channel_message_cache cid
          = some msgs
      ∧ (∀ k, k ≠ cid →
          (handle_bg_result s (.channelMessages cid msgs)).channel_message_cache k
            = s.channel_message_cache k)
      ∧ (selected_channel_id s = some cid → s.view_mode = .teams →
          (handle_bg_result s (.channelMessages cid msgs)).channel_messages = msgs)
      ∧ (¬ (selected_channel_id s = some cid ∧ s.view_mode = .teams) →
          (handle_bg_result s (.channelMessages cid msgs)).channel_messages
            = s.channel_messages)) := by
  constructor
  · intro tid chs
    refine ⟨?_, ?_, ?_, ?_⟩
    · simp only [handle_bg_result]
      split_ifs with h1 h2
      · rw [(show_cached_preserves _).2.1]; simp [updateMap]
      · simp [updateMap]
      · simp [updateMap]
    · intro k hk
      simp only [handle_bg_result]
      split_ifs with h1 h2
      · rw [(show_cached_preserves _).2.1]; simp [updateMap, hk]
      · simp [updateMap, hk]
      · simp [updateMap, hk]
    · intro h
      simp only [handle_bg_result]
      split_ifs with h1 h2
      · exact (show_cached_preserves _).1
      · rfl
      · exact absurd h h1
    · intro h
      simp only [handle_bg_result]
      split_ifs with h1 h2
      · exact absurd h1 h
      · exact absurd h1 h
      · exact ⟨rfl, rfl⟩
  · intro cid msgs
    refine ⟨?_, ?_, ?_, ?_⟩
    · simp only [handle_bg_result]
      split_ifs <;> simp [updateMap]
    · intro k hk
      simp only [handle_bg_result]
      split_ifs <;> simp [updateMap, hk]
    · intro h1 h2
      simp only [handle_bg_result]
      split_ifs with hc
      · rfl
      · exact absurd ⟨h1, h2⟩ hc
    · intro h
      simp only [handle_bg_result]
      split_ifs with hc
      · exact absurd ⟨hc.1, hc.2⟩ h
      · rfl

/-- C7 witness: on `sampleUi` a channels result for the selected team
`t1` replaces the channel list, while a channel-messages result for the
non-selected channel `c9` updates only the cache and leaves the
on-screen messages unchanged. -/
theorem c7_handle_bg_result_witness :
    (handle_bg_result sampleUi (.channels "t1" [⟨"c2", "C2", none, none⟩])).channels
        = [⟨"c2", "C2", none, none⟩]
    ∧ (handle_bg_result sampleUi (.channelMessages "c9" [])).channel_messages
        = sampleUi.channel_messages
    ∧ (handle_bg_result sampleUi (.channelMessages "c9" [])).channel_message_cache "c9"
        = some [] :=
  ⟨((c7_handle_bg_result sampleUi).1 "t1" [⟨"c2", "C2", none, none⟩]).2.2.1 rfl,
   ((c7_handle_bg_result sampleUi).2 "c9" []).2.2.2
     (fun h => absurd h.1 (by simp [sampleUi, selected_channel_id])),
   ((c7_handle_bg_result sampleUi).2 "c9" []).1⟩

/-- C10 witness: vault token `"T"`, empty refresh entry, unparsable
metadata `"x,y"` gives the defaulted `Bearer` credential. -/
theorem c10_load_token_keyring_witness :
    load_token_keyring ⟨some "T", some "", some "x,y", true, false, none⟩ =
        some ⟨"T", filterNonempty (some ""), 3600, "Bearer", 0⟩
    ∧ TokenResponse.is_expired ⟨"T", filterNonempty (some ""), 3600, "Bearer", 0⟩
        5000 = true :=
  ⟨(c10_load_token_keyring _ "T" rfl (by decide)
      (Or.inr (Or.inr ⟨"x,y", rfl, rfl, rfl⟩))).1,
   (c10_load_token_keyring ⟨some "T", some "", some "x,y", true, false, none⟩ "T"
      rfl (by decide) (Or.inr (Or.inr ⟨"x,y", rfl, rfl, rfl⟩))).2.2 5000 (by decide)⟩

/-- C1: the claim states `is_expired = true ↔ now ≥ obtained_at + expires_in − 60`
(exact integer arithmetic, "including when `expires_in` is less than 60").
This fails: with `expires_in = 30`, `obtained_at = 100`, `now = 90` the
integer boundary `100 + 30 − 60 = 70 ≤ 90` says expired, but the code's
saturating subtraction gives boundary `100` and reports not expired. -/
theorem c1_counterexample :
    ¬ ((TokenResponse.is_expired ⟨"at", none, 30, "Bearer", 100⟩ 90 = true) ↔
      ((90 : ℤ) ≥ 100 + 30 - 60)) := by
  decide

/-- C1 (amended): `is_expired` returns true iff
`now ≥ obtained_at + max (expires_in − 60) 0` over the integers — the
60-second safety margin is subtracted saturatingly, so for `expires_in < 60`
the boundary is `obtained_at` itself, not `obtained_at + expires_in − 60`. -/
theorem c1_is_expired_boundary (t : TokenResponse) (now : Nat) :
    t.is_expired now = true ↔
      (now : ℤ) ≥ (t.obtained_at : ℤ) + max ((t.expires_in : ℤ) - 60) 0 := by
  simp only [TokenResponse.is_expired, decide_eq_true_eq, ge_iff_le]
  rcases Nat.le_total t.expires_in 60 with h | h
  · rw [max_eq_right (by omega)]
    omega
  · rw [max_eq_left (by omega)]
    omega
